import Mathlib

/-!
Verification development for the `music_rec_app` repository.

The Python sources are shallowly embedded below:

* `utils/text.py`            → `normalizeSpace`, `parseUserQuery`
* `models/dto.py`            → `TrackRecommendation`, `RecommendResult`
* `core/recommend_service.py`→ `resolveTrackArtist`, `resolveArtist`,
  `getFallbackTagsForTrack`, `recommendByTrack`, `recommendByArtistFallback`,
  `sortItems`, `recommend`
* `ui/main_window.py`        → `personalScore`, `personalizedRerank`,
  `uiRerankAssign`
* `utils/favorites.py`       → `storeFavArtists`, `storeFavTags`, `storeFavKeys`
* `utils/feedback.py`        → `feedbackScore`
* `core/providers/*.py`      → `Provider` (exception behaviour as `Except`),
  `itunesSearchTrackC`, `mbGetC`, `lastfmGetC`, and the canonical cache keys
* `utils/cache.py` is imported by the sources but absent from the repository
  snapshot; `TTLCacheM` below is modelled from the spec (see its docstring).

Conventions: Python `None`-able strings become `Option String`; Python float
similarity scores become `Option ℚ` (the comparisons performed by the code are
exact, so rationals are a faithful carrier); a Python `try/except` that
swallows an error becomes a `match` on `Except`; an unguarded provider call
becomes `Except.bind` (the error propagates).  Python truthiness on strings
(`if s:`) is `s ≠ ""` for present strings, falsy for `None`.
-/

deriving instance DecidableEq for Except

namespace MusicRec

/-! ### `utils/text.py` -/

/-- ASCII fragment of Python's whitespace class used by `str.strip` and the
regex `\s`. -/
def isSpaceChar (c : Char) : Bool :=
  c == ' ' || c == '\t' || c == '\n' || c == '\r' || c == '\x0b' || c == '\x0c'

/-- Maximal non-whitespace runs of a character list (`s.split()` in Python). -/
def wordsAux : List Char → List Char → List (List Char)
  | [], acc => if acc.isEmpty then [] else [acc.reverse]
  | c :: cs, acc =>
    if isSpaceChar c then
      if acc.isEmpty then wordsAux cs [] else acc.reverse :: wordsAux cs []
    else wordsAux cs (c :: acc)

/-- `normalize_space` from `utils/text.py`:
`re.sub(r"\s+", " ", (s or "").strip())`, i.e. join the whitespace-separated
words with single spaces. -/
def normalizeSpace (s : String) : String :=
  String.mk (List.intercalate [' '] (wordsAux s.data []))

/-- Python string truthiness on an optional string: `None` and `""` are falsy. -/
def pyTruthyOpt : Option String → Option String
  | some s => if s = "" then none else some s
  | none => none

/-- Python `x or d` for an optional string `x`. -/
def pyOrStr : Option String → String → String
  | some s, d => if s = "" then d else s
  | none, d => d

/-- Scanner for the regex `^(.+?)\s+by\s+(.+)$` (case-insensitive) of
`parse_user_query`.  The regex is only ever applied to whitespace-normalized
text, where `\s+` can only match one single space; the lazy `.+?` group means
the split happens at the first delimited `by`.  The accumulator holds the
reversed track prefix scanned so far. -/
def findBySplitAux : List Char → List Char → Option (List Char × List Char)
  | _, [] => none
  | acc, c :: cs =>
    if c == ' ' then
      match cs with
      | b :: y :: sp :: rest =>
        if (b == 'b' || b == 'B') && (y == 'y' || y == 'Y') && sp == ' '
            && !acc.isEmpty && !rest.isEmpty then
          some (acc.reverse, rest)
        else findBySplitAux (c :: acc) cs
      | _ => findBySplitAux (c :: acc) cs
    else findBySplitAux (c :: acc) cs

def findBySplit (t : List Char) : Option (List Char × List Char) :=
  findBySplitAux [] t

/-- `sep` occurs at the head of `t`. -/
def headMatches : List Char → List Char → Bool
  | [], _ => true
  | _ :: _, [] => false
  | s :: ss, c :: cs => s == c && headMatches ss cs

/-- Split `t` at the first occurrence of `sep` (Python `t.split(sep, 1)` when
`sep in t`).  The accumulator holds the reversed left part scanned so far. -/
def splitFirstAux (sep : List Char) : List Char → List Char → Option (List Char × List Char)
  | _, [] => none
  | acc, c :: cs =>
    if headMatches sep (c :: cs) then some (acc.reverse, (c :: cs).drop sep.length)
    else splitFirstAux sep (c :: acc) cs

def splitFirst (sep t : List Char) : Option (List Char × List Char) :=
  splitFirstAux sep [] t

/-- The separator loop of `parse_user_query`: for each separator in priority
order, if it occurs, split at the first occurrence and accept only if both
normalized sides are non-empty, otherwise try the next separator. -/
def findSepSplit (t : List Char) : List (List Char) → Option (String × String)
  | [] => none
  | sep :: seps =>
    match splitFirst sep t with
    | some (l, r) =>
      let l' := normalizeSpace (String.mk l)
      let r' := normalizeSpace (String.mk r)
      if l' ≠ "" && r' ≠ "" then some (l', r') else findSepSplit t seps
    | none => findSepSplit t seps

/-- The three separators `" - "`, `" — "` (em dash), `" – "` (en dash) in the
fixed priority order of `parse_user_query`. -/
def sepList : List (List Char) := [[' ', '-', ' '], [' ', '—', ' '], [' ', '–', ' ']]

/-- `parse_user_query` from `utils/text.py`. -/
def parseUserQuery (text : String) : Option String × Option String :=
  let t := normalizeSpace text
  if t = "" then (none, none)
  else
    match findBySplit t.data with
    | some (tr, ar) => (some (normalizeSpace (String.mk tr)), some (normalizeSpace (String.mk ar)))
    | none =>
      match findSepSplit t.data sepList with
      | some (l, r) => (some l, some r)
      | none => (none, some t)

/-! ### `models/dto.py` -/

/-- `TrackRecommendation` dataclass from `models/dto.py`. -/
structure TrackRecommendation where
  track : String
  artist : String
  rank : ℕ
  similarity : Option ℚ := none
  lastfm_url : Option String := none
  preview_url : Option String := none
  artwork_url : Option String := none
  itunes_url : Option String := none
  tags : List String := []
  reason : String := ""
deriving DecidableEq, Repr

/-- `RecommendResult` dataclass from `models/dto.py`. -/
structure RecommendResult where
  mode : String
  resolved_track : Option String := none
  resolved_artist : Option String := none
  query_raw : String := ""
  items : List TrackRecommendation := []
  message : String := ""
deriving DecidableEq, Repr

/-! ### Provider model

The three HTTP clients (`lastfm_client.py`, `itunes_client.py`,
`musicbrainz_client.py`) normalize provider JSON into lists/records at the
adapter boundary; `RecommendService` only sees the normalized shapes.  A
provider operation that can raise (network failure, non-2xx, malformed
payload, provider-reported error) is a function into `Except PError`. -/

abbrev PError := String

/-- One entry of the `track.getSimilar` list: `name`, `artist.name`, `url`,
and the result of `_safe_float` on `match`. -/
structure SimilarTrackEntry where
  name : Option String := none
  artistName : Option String := none
  url : Option String := none
  matchScore : Option ℚ := none
deriving DecidableEq, Repr

/-- One entry of the `artist.getSimilar` list. -/
structure SimilarArtistEntry where
  name : Option String := none
  matchScore : Option ℚ := none
deriving DecidableEq, Repr

/-- One entry of the `artist.getTopTracks` list. -/
structure TopTrackEntry where
  name : Option String := none
  artistName : Option String := none
  url : Option String := none
deriving DecidableEq, Repr

/-- One MusicBrainz recording: `title` and the `artist-credit` list, each
credit modelled by its optional `name`. -/
structure RecordingEntry where
  title : Option String := none
  artistCredit : List (Option String) := []
deriving DecidableEq, Repr

/-- One MusicBrainz artist search result. -/
structure ArtistEntry where
  name : Option String := none
deriving DecidableEq, Repr

/-- One iTunes search hit (the fields read by `_attach_preview`). -/
structure ITunesHit where
  previewUrl : Option String := none
  artworkUrl100 : Option String := none
  trackViewUrl : Option String := none
deriving DecidableEq, Repr

/-- The upstream operations used by `RecommendService`, with the exception
behaviour of each call site made explicit through `Except`. -/
structure Provider where
  trackGetSimilar : String → String → ℕ → Except PError (List SimilarTrackEntry)
  trackGetTopTags : String → String → ℕ → Except PError (List String)
  artistGetSimilar : String → ℕ → Except PError (List SimilarArtistEntry)
  artistGetTopTracks : String → ℕ → Except PError (List TopTrackEntry)
  artistGetTopTags : String → ℕ → Except PError (List String)
  searchRecording : String → ℕ → Except PError (List RecordingEntry)
  searchArtist : String → ℕ → Except PError (List ArtistEntry)
  itunesSearchTrack : String → String → String → Except PError (Option ITunesHit)

/-! ### `core/recommend_service.py` -/

/-- `RecommendService._resolve_track_artist` (exception-swallowing). -/
def resolveTrackArtist (p : Provider) (track artist : String) : String × String :=
  match p.searchRecording ("recording:\"" ++ track ++ "\" AND artist:\"" ++ artist ++ "\"") 3 with
  | .error _ => (track, artist)
  | .ok [] => (track, artist)
  | .ok (best :: _) =>
    let title := pyOrStr best.title track
    let credit0 : Option String :=
      match best.artistCredit with
      | [] => none
      | c :: _ => c
    (normalizeSpace title, normalizeSpace (pyOrStr credit0 artist))

/-- `RecommendService._resolve_artist` (exception-swallowing, absent on
empty result or error). -/
def resolveArtist (p : Provider) (artist : String) : Option String :=
  match p.searchArtist ("artist:\"" ++ artist ++ "\"") 3 with
  | .error _ => none
  | .ok [] => none
  | .ok (a :: _) => some (normalizeSpace (pyOrStr a.name artist))

/-- `RecommendService._reason`. -/
def reasonStr (base : String) (tags : List String) : String :=
  if tags ≠ [] then base ++ " | tags: " ++ String.intercalate ", " (tags.take 3)
  else base

/-- One step of the three-step tag chain: use the step's result if it is a
non-empty list, otherwise continue with the fallback (both an erroring step
and an empty step fall through). -/
def firstTags (step : Except PError (List String)) (fallback : List String) : List String :=
  match step with
  | .ok tags => if tags.isEmpty then fallback else tags
  | .error _ => fallback

/-- `RecommendService._get_fallback_tags_for_track`: (1) similar-artist top
tags, (2) query-artist top tags, (3) track top tags, first non-empty wins,
every failure swallowed, `[]` if all fail. -/
def getFallbackTagsForTrack (p : Provider) (track artist simArtist queryArtist : String)
    (limit : ℕ) : List String :=
  firstTags (p.artistGetTopTags simArtist limit)
    (firstTags (p.artistGetTopTags queryArtist limit)
      (firstTags (p.trackGetTopTags track artist limit) []))

/-- `RecommendService._attach_preview`: per-item best-effort iTunes lookup;
on success attach the three URLs, on error or no hit keep the item as is. -/
def attachPreview (p : Provider) (items : List TrackRecommendation) : List TrackRecommendation :=
  items.map fun it =>
    match p.itunesSearchTrack it.track it.artist "KR" with
    | .ok (some hit) =>
      { it with preview_url := hit.previewUrl, artwork_url := hit.artworkUrl100,
                itunes_url := hit.trackViewUrl }
    | .ok none => it
    | .error _ => it

/-- The item-building loop of `RecommendService._recommend_by_track`:
`idx` enumerates the raw list 1-based (skipped entries still advance it);
entries with a falsy name or artist are skipped; per-item tag fetch errors
degrade to `[]`. -/
def buildTrackItems (p : Provider) : List SimilarTrackEntry → ℕ → List TrackRecommendation
  | [], _ => []
  | r :: rest, idx =>
    match pyTruthyOpt r.name, pyTruthyOpt r.artistName with
    | some name, some art =>
      let tags :=
        match p.trackGetTopTags name art 5 with
        | .ok t => t
        | .error _ => []
      { track := name, artist := art, rank := idx, similarity := r.matchScore,
        lastfm_url := r.url, tags := tags,
        reason := reasonStr "Similar track based on Last.fm similarity" tags }
        :: buildTrackItems p rest (idx + 1)
    | _, _ => buildTrackItems p rest (idx + 1)

/-- `RecommendService._recommend_by_track`.  The `track.getSimilar` call is
not guarded by a `try`, so its error propagates. -/
def recommendByTrack (p : Provider) (track artist : String) (limitTracks : ℕ) :
    Except PError (List TrackRecommendation) :=
  (p.trackGetSimilar track artist limitTracks).map fun raws =>
    attachPreview p (buildTrackItems p raws 1)

/-- Inner loop of `RecommendService._recommend_by_artist_fallback` over one
similar artist's top tracks.  Appends a candidate per truthy-named top track
(artist credited to the top track's own artist, falling back to the similar
artist's name; similarity inherited from the similar artist's match score),
and breaks as soon as the accumulated list reaches `limitTracks` — the check
happens after the append, exactly as in the source. -/
def fallbackInner (p : Provider) (queryArtist aName : String) (aMatch : Option ℚ)
    (limitTracks : ℕ) :
    List TopTrackEntry → List TrackRecommendation → ℕ → List TrackRecommendation × ℕ
  | [], items, rank => (items, rank)
  | t :: ts, items, rank =>
    match pyTruthyOpt t.name with
    | none => fallbackInner p queryArtist aName aMatch limitTracks ts items rank
    | some tName =>
      let tArtist := pyOrStr t.artistName aName
      let tags := getFallbackTagsForTrack p tName tArtist aName queryArtist 5
      let item : TrackRecommendation :=
        { track := tName, artist := tArtist, rank := rank, similarity := aMatch,
          lastfm_url := t.url, tags := tags,
          reason := reasonStr ("Top track from similar artist: " ++ aName) tags }
      let items' := items ++ [item]
      if limitTracks ≤ items'.length then (items', rank + 1)
      else fallbackInner p queryArtist aName aMatch limitTracks ts items' (rank + 1)

/-- Outer loop of `_recommend_by_artist_fallback` over the similar artists.
The `artist.getTopTracks` call is unguarded, so its error propagates; the
outer loop stops once the emitted list has reached `limitTracks`. -/
def fallbackOuter (p : Provider) (queryArtist : String) (limitTracks : ℕ) :
    List SimilarArtistEntry → List TrackRecommendation → ℕ →
    Except PError (List TrackRecommendation)
  | [], items, _ => .ok items
  | a :: rest, items, rank =>
    match pyTruthyOpt a.name with
    | none => fallbackOuter p queryArtist limitTracks rest items rank
    | some aName =>
      (p.artistGetTopTracks aName 3).bind fun tops =>
        let res := fallbackInner p queryArtist aName a.matchScore limitTracks tops items rank
        if limitTracks ≤ res.1.length then .ok res.1
        else fallbackOuter p queryArtist limitTracks rest res.1 res.2

/-- `RecommendService._recommend_by_artist_fallback`.  The
`artist.getSimilar` call is unguarded, so its error propagates. -/
def recommendByArtistFallback (p : Provider) (artist : String) (limitTracks : ℕ) :
    Except PError (List TrackRecommendation) :=
  (p.artistGetSimilar artist 10).bind fun simArtists =>
    (fallbackOuter p artist limitTracks simArtists [] 1).map fun items =>
      attachPreview p items

/-- Python truthiness of the `preview_url` field (`1 if x.preview_url else 0`
— `None` and `""` are falsy). -/
def previewTruthy : Option String → Bool
  | some s => s ≠ ""
  | none => false

def previewFlag (x : TrackRecommendation) : ℕ :=
  if previewTruthy x.preview_url then 1 else 0

/-- The second sort-key component of `_sort_items`: the similarity when it is
a float, the sentinel `-1` otherwise. -/
def simKey (x : TrackRecommendation) : ℚ :=
  x.similarity.getD (-1)

/-- `x` may be placed before `y` by the descending sort of `_sort_items`
(`key = (preview flag, similarity-or-−1)`, `reverse=True`). -/
def baseSortRel (x y : TrackRecommendation) : Prop :=
  previewFlag y < previewFlag x ∨ (previewFlag x = previewFlag y ∧ simKey y ≤ simKey x)

instance : DecidableRel baseSortRel := fun x y =>
  inferInstanceAs (Decidable (previewFlag y < previewFlag x ∨
    (previewFlag x = previewFlag y ∧ simKey y ≤ simKey x)))

/-- `RecommendService._sort_items`: Python's `list.sort(key, reverse=True)` is
the unique stable descending sort for the total preorder `baseSortRel`, which
is what `List.insertionSort baseSortRel` computes. -/
def sortItems (items : List TrackRecommendation) : List TrackRecommendation :=
  List.insertionSort baseSortRel items

/-- The terminal `mode="none"` result for input that is empty after
normalization (`query_raw` keeps the raw user text here, per the source). -/
def emptyInputResult (userText : String) : RecommendResult :=
  { mode := "none", query_raw := userText, message := "입력값이 비어있어요." }

/-- Section 2 of `RecommendService.recommend` (the artist-only fallback):
`fallback_artist = artist or raw`, resolve it (falling back to the unresolved
string), run the artist fallback, and wrap either the empty-result message or
the ranked items. -/
def fallbackPhase (p : Provider) (raw : String) (artistOpt : Option String)
    (limitTracks : ℕ) : Except PError RecommendResult :=
  let fa := pyOrStr artistOpt raw
  let resolvedArtist := pyOrStr (resolveArtist p fa) fa
  (recommendByArtistFallback p resolvedArtist limitTracks).bind fun items =>
    if items.isEmpty then
      .ok { mode := "artist_fallback", resolved_artist := some resolvedArtist,
            query_raw := raw, items := [],
            message := "추천을 만들지 못했어요. 아티스트/곡명을 조금 더 정확히 입력해보세요." }
    else
      .ok { mode := "artist_fallback", resolved_artist := some resolvedArtist,
            query_raw := raw, items := sortItems items,
            message := "'" ++ resolvedArtist ++ "'(아티스트) 기반 추천" }

/-- `RecommendService.recommend`. -/
def recommend (p : Provider) (userText : String) (limitTracks : ℕ) :
    Except PError RecommendResult :=
  let raw := normalizeSpace userText
  if raw = "" then .ok (emptyInputResult userText)
  else
    let parsed := parseUserQuery raw
    match pyTruthyOpt parsed.1, pyTruthyOpt parsed.2 with
    | some track, some artist =>
      let res := resolveTrackArtist p track artist
      (recommendByTrack p res.1 res.2 limitTracks).bind fun items =>
        if items.isEmpty then fallbackPhase p raw parsed.2 limitTracks
        else
          .ok { mode := "track", resolved_track := some res.1,
                resolved_artist := some res.2, query_raw := raw,
                items := sortItems items,
                message := "'" ++ res.1 ++ " - " ++ res.2 ++ "' 기반 추천" }
    | _, _ => fallbackPhase p raw parsed.2 limitTracks

/-! ### `utils/favorites.py`, `utils/feedback.py`, and the preference state -/

/-- Python `s.strip()` on the ASCII whitespace fragment. -/
def pyStrip (s : String) : String :=
  String.mk (((s.data.dropWhile fun c => isSpaceChar c).reverse.dropWhile
    fun c => isSpaceChar c).reverse)

/-- Python `s.strip().lower()` (ASCII case fold, which is what the data in
this app uses). -/
def pyStripLower (s : String) : String :=
  String.mk ((pyStrip s).data.map Char.toLower)

/-- `normalize_key` from `utils/favorites.py`: `f"{t}|||{a}"` over the
stripped lowercased parts — the favorite key. -/
def favNormKey (track artist : String) : String :=
  pyStripLower track ++ "|||" ++ pyStripLower artist

/-- The favorite key of a recommendation item (used by
`MainWindow._is_favorite`). -/
def favKeyOf (it : TrackRecommendation) : String :=
  favNormKey it.track it.artist

/-- One stored favorite (the fields of `favorites.json` that the preference
signals read). -/
structure FavItem where
  track : String
  artist : String
  tags : List String := []
deriving DecidableEq, Repr

/-- `FavoritesStore.favorite_artists`: lowercased stripped artist names of
stored items with a truthy artist. -/
def storeFavArtists (st : List FavItem) : Finset String :=
  ((st.filter fun it => it.artist ≠ "").map fun it => pyStripLower it.artist).toFinset

/-- `FavoritesStore.favorite_tags`: lowercased stripped truthy tags of all
stored items. -/
def storeFavTags (st : List FavItem) : Finset String :=
  (((st.flatMap fun it => it.tags).filter fun t => t ≠ "").map pyStripLower).toFinset

/-- Keys of `FavoritesStore.to_map` (= `MainWindow._fav_map`): the favorite
key of each stored item, kept only when `key.strip("|||")` is truthy, i.e.
when the key has some character other than `'|'`. -/
def storeFavKeys (st : List FavItem) : Finset String :=
  ((st.map fun it => favNormKey it.track it.artist).filter
    fun k => k.data.any fun c => c ≠ '|').toFinset

/-- `FavoritesStore.upsert` on a store with distinct keys: replace the entry
with the same favorite key, else append; a no-op when the key is all-`'|'`
(the `if not key.strip("|||"): return` guard). -/
def upsertFavAux : List FavItem → FavItem → List FavItem
  | [], x => [x]
  | y :: ys, x =>
    if favNormKey y.track y.artist = favNormKey x.track x.artist then x :: ys
    else y :: upsertFavAux ys x

def upsertFav (st : List FavItem) (x : FavItem) : List FavItem :=
  if (favNormKey x.track x.artist).data.any (fun c => c ≠ '|') then upsertFavAux st x
  else st

/-- One record of `feedback.json`: like/dislike counters and last-action
marker, keyed by `utils/feedback.py`'s `normalize_key`. -/
structure FeedbackRec where
  like : ℕ := 0
  dislike : ℕ := 0
  last : String := ""
deriving DecidableEq, Repr

/-- `FeedbackStore.score` (baseline `120·like − 120·dislike`, `±40` for the
last action).  `utils/feedback.py` defines this, but nothing in the UI calls
it. -/
def feedbackScore (data : List (String × FeedbackRec)) (track artist : String) : ℚ :=
  let key := pyStripLower track ++ "|" ++ pyStripLower artist
  match data.find? fun kv => kv.1 = key with
  | none => 0
  | some (_, rec) =>
    let base : ℚ := (rec.like : ℚ) * 120 - (rec.dislike : ℚ) * 120
    if rec.last = "like" then base + 40
    else if rec.last = "dislike" then base - 40
    else base

/-- The preference state consumed by the personalization scorer: favorite
artists, favorite tags, stored favorite keys (`_fav_map`), and the feedback
store contents. -/
structure PrefState where
  favArtists : Finset String
  favTags : Finset String
  favKeys : Finset String
  feedback : List (String × FeedbackRec) := []

/-- The preference state derived from a favorites store and a feedback
store, the way `MainWindow` derives it before re-ranking. -/
def prefOfStore (st : List FavItem) (fb : List (String × FeedbackRec)) : PrefState :=
  { favArtists := storeFavArtists st, favTags := storeFavTags st,
    favKeys := storeFavKeys st, feedback := fb }

/-! ### `ui/main_window.py` — personalization -/

/-- The lowercased stripped truthy tag set of an item
(`{t.strip().lower() for t in it.tags if t}`). -/
def itemTagSet (tags : List String) : Finset String :=
  ((tags.filter fun t => t ≠ "").map pyStripLower).toFinset

/-- The `score` closure of `MainWindow._personalized_rerank`: `+1000` for a
truthy preview URL, `+100·similarity` when similarity is a float, `+60` for a
favorite artist, `+10·|tag overlap|` when both tag sets are non-empty, `+80`
when the item's favorite key is stored.  The feedback store is not consulted. -/
def personalScore (favArtists favTags favKeys : Finset String)
    (it : TrackRecommendation) : ℚ :=
  (if previewTruthy it.preview_url then (1000 : ℚ) else 0)
    + (match it.similarity with
       | some q => q * 100
       | none => 0)
    + (if pyStripLower it.artist ∈ favArtists then 60 else 0)
    + (if it.tags ≠ [] ∧ favTags.Nonempty then
        (10 : ℚ) * ((itemTagSet it.tags) ∩ favTags).card else 0)
    + (if favKeyOf it ∈ favKeys then 80 else 0)

/-- `x` may be placed before `y` by `sorted(items, key=score, reverse=True)`. -/
def scoreRel (favArtists favTags favKeys : Finset String)
    (x y : TrackRecommendation) : Prop :=
  personalScore favArtists favTags favKeys y ≤ personalScore favArtists favTags favKeys x

instance (A T K : Finset String) : DecidableRel (scoreRel A T K) := fun x y =>
  inferInstanceAs (Decidable (personalScore A T K y ≤ personalScore A T K x))

/-- `MainWindow._personalized_rerank`: stable descending sort by the
personalization score (the `if not items: return items` guard included). -/
def personalizedRerank (s : PrefState) (items : List TrackRecommendation) :
    List TrackRecommendation :=
  if items.isEmpty then items
  else List.insertionSort (scoreRel s.favArtists s.favTags s.favKeys) items

/-- The `for i, it in enumerate(items, start=1): it.rank = i` loops of
`MainWindow` (dense 1-based rank reassignment), starting at `k`. -/
def reassignRanksFrom : ℕ → List TrackRecommendation → List TrackRecommendation
  | _, [] => []
  | k, it :: rest => { it with rank := k } :: reassignRanksFrom (k + 1) rest

def reassignRanks (items : List TrackRecommendation) : List TrackRecommendation :=
  reassignRanksFrom 1 items

/-- `MainWindow.on_recommend_finished` lines 313–318: personalization
re-rank followed by dense rank reassignment. -/
def uiRerankAssign (s : PrefState) (items : List TrackRecommendation) :
    List TrackRecommendation :=
  reassignRanks (personalizedRerank s items)

/-! ### TTL cache and provider cache keys

`utils/cache.py` is imported by the sources (`TTLCache`) but is not part of
the repository snapshot, so the cache itself is modelled from the spec; the
cache *keys* below are embedded from `itunes_client.py` /
`musicbrainz_client.py`, and `lastfm_client.py`'s `_get` is embedded as
written — it constructs no cache key and touches no cache. -/

/-- Modelled from the spec: `utils/cache.py`'s `TTLCache` is missing from the
snapshot.  Spec §4.1/§3: `get(key)` returns the stored value, or absent once
`now > expiresAt`; `set` stores the value with `expiresAt = now + ttl`;
expiry is lazy. -/
structure TTLCacheM (α : Type) where
  ttlSeconds : ℕ
  entries : List (String × α × ℕ) := []

def TTLCacheM.get {α : Type} (c : TTLCacheM α) (now : ℕ) (key : String) : Option α :=
  match c.entries.find? fun e => e.1 = key with
  | some (_, v, expiresAt) => if expiresAt < now then none else some v
  | none => none

def TTLCacheM.set {α : Type} (c : TTLCacheM α) (now : ℕ) (key : String) (v : α) :
    TTLCacheM α :=
  { c with entries := (key, v, now + c.ttlSeconds) :: c.entries.filter fun e => e.1 ≠ key }

/-- Ordering of parameter entries by key, as produced by Python's
`sorted(params.keys())` (lexicographic by code point). -/
def keyLe (a b : String × String) : Prop := a.1 ≤ b.1

instance : DecidableRel keyLe := fun a b => inferInstanceAs (Decidable (a.1 ≤ b.1))

instance : IsTotal (String × String) keyLe := ⟨fun a b => le_total a.1 b.1⟩

instance : IsTrans (String × String) keyLe := ⟨fun _ _ _ h1 h2 => le_trans h1 h2⟩

/-- Serialize a parameter map as `"&".join(f"{k}={params[k]}" for k in
sorted(params.keys()))` — the canonical sorted-key order used by both cached
clients. -/
def canonParams (params : List (String × String)) : String :=
  String.intercalate "&"
    ((List.insertionSort keyLe params).map fun kv => kv.1 ++ "=" ++ kv.2)

/-- Client-side state: the shared cache plus a count of network requests
actually issued. -/
structure ClientState (α : Type) where
  cache : TTLCacheM α
  netCalls : ℕ := 0

/-- The iTunes search parameters of `ITunesClient.search_track`. -/
def itunesParams (track artist country : String) : List (String × String) :=
  [("term", pyStrip (track ++ " " ++ artist)), ("media", "music"),
   ("entity", "song"), ("limit", "1"), ("country", country)]

def itunesCacheKey (track artist country : String) : String :=
  "itunes:" ++ canonParams (itunesParams track artist country)

/-- `ITunesClient.search_track`: read the cache at the canonical key; a
stored non-`None` value is returned without a network call; otherwise fetch
and store the (possibly `None`) first result. -/
def itunesSearchTrackC (net : List (String × String) → Option ITunesHit)
    (track artist country : String) (now : ℕ) (st : ClientState (Option ITunesHit)) :
    Option ITunesHit × ClientState (Option ITunesHit) :=
  let key := itunesCacheKey track artist country
  match st.cache.get now key with
  | some (some hit) => (some hit, st)
  | _ =>
    let item := net (itunesParams track artist country)
    (item, { cache := st.cache.set now key item, netCalls := st.netCalls + 1 })

/-- The MusicBrainz cache key of `MusicBrainzClient._get`:
`"mb:" + endpoint + "?" + canonical params` (with `fmt=json` appended). -/
def mbCacheKey (endpoint : String) (params : List (String × String)) : String :=
  "mb:" ++ endpoint ++ "?" ++ canonParams (params ++ [("fmt", "json")])

/-- `MusicBrainzClient._get` (cache read/write; the response payload is
opaque, modelled as `ℕ`). -/
def mbGetC (net : String → List (String × String) → ℕ) (endpoint : String)
    (params : List (String × String)) (now : ℕ) (st : ClientState ℕ) :
    ℕ × ClientState ℕ :=
  let key := mbCacheKey endpoint params
  match st.cache.get now key with
  | some data => (data, st)
  | none =>
    let data := net endpoint (params ++ [("fmt", "json")])
    (data, { cache := st.cache.set now key data, netCalls := st.netCalls + 1 })

/-- `LastFMClient._get`: appends `api_key` and `format=json` and issues the
request.  The client holds no cache — every call is a network call and the
shared cache state is untouched. -/
def lastfmGetC {α : Type} (apiKey : String) (net : List (String × String) → ℕ)
    (params : List (String × String)) (st : ClientState α) : ℕ × ClientState α :=
  (net (params ++ [("api_key", apiKey), ("format", "json")]),
   { st with netCalls := st.netCalls + 1 })

/-! ### Concrete providers used by witnesses and counterexamples -/

/-- A provider whose every operation succeeds with an empty result. -/
def pEmptyOk : Provider :=
  { trackGetSimilar := fun _ _ _ => .ok []
    trackGetTopTags := fun _ _ _ => .ok []
    artistGetSimilar := fun _ _ => .ok []
    artistGetTopTracks := fun _ _ => .ok []
    artistGetTopTags := fun _ _ => .ok []
    searchRecording := fun _ _ => .ok []
    searchArtist := fun _ _ => .ok []
    itunesSearchTrack := fun _ _ _ => .ok none }

/-- A provider whose `track.getSimilar` raises while everything else
succeeds. -/
def pSimErr : Provider :=
  { pEmptyOk with trackGetSimilar := fun _ _ _ => .error "network down" }

/-- A provider whose `artist.getSimilar` raises while everything else
succeeds. -/
def pArtSimErr : Provider :=
  { pEmptyOk with artistGetSimilar := fun _ _ => .error "similar artists down" }

/-- A provider for the artist-fallback path: two similar artists with match
scores `1/10` and `9/10`, one truthy-named top track each, no tags and no
iTunes hits. -/
def pFallback : Provider :=
  { pEmptyOk with
    artistGetSimilar := fun _ _ =>
      .ok [{ name := some "A1", matchScore := some 1 },
           { name := some "A2", matchScore := some 9 }]
    artistGetTopTracks := fun a _ =>
      if a = "A1" then .ok [{ name := some "T1", artistName := some "A1" }]
      else if a = "A2" then .ok [{ name := some "T2", artistName := some "A2" }]
      else .ok [] }

/-- A provider step that yielded nothing: an empty tag list or a raised
(swallowed) error. -/
def emptyOrErr (r : Except PError (List String)) : Prop :=
  r = .ok [] ∨ ∃ e, r = .error e

/-- Provider for the C8 witness: both artist-tag steps yield nothing, the
track-tag step yields `["pop", "dance"]`. -/
def pTagChain : Provider :=
  { pEmptyOk with trackGetTopTags := fun _ _ _ => .ok ["pop", "dance"] }

instance : IsTotal TrackRecommendation baseSortRel :=
  ⟨fun x y => by
    rcases Nat.lt_trichotomy (previewFlag x) (previewFlag y) with h | h | h
    · exact Or.inr (Or.inl h)
    · rcases le_total (simKey y) (simKey x) with hs | hs
      · exact Or.inl (Or.inr ⟨h, hs⟩)
      · exact Or.inr (Or.inr ⟨h.symm, hs⟩)
    · exact Or.inl (Or.inl h)⟩

instance : IsTrans TrackRecommendation baseSortRel :=
  ⟨fun x y z hxy hyz => by
    rcases hxy with h1 | ⟨h1, hs1⟩ <;> rcases hyz with h2 | ⟨h2, hs2⟩
    · exact Or.inl (lt_trans h2 h1)
    · exact Or.inl (h2 ▸ h1)
    · exact Or.inl (h1 ▸ h2)
    · exact Or.inr ⟨h1.trans h2, hs2.trans hs1⟩⟩

instance (A T K : Finset String) : IsTotal TrackRecommendation (scoreRel A T K) :=
  ⟨fun x y => le_total (personalScore A T K y) (personalScore A T K x)⟩

instance (A T K : Finset String) : IsTrans TrackRecommendation (scoreRel A T K) :=
  ⟨fun _ _ _ hxy hyz => le_trans hyz hxy⟩

/-- The provenance of one artist-fallback candidate: it comes from some
similar artist `a` (truthy name `aName`) whose top-track fetch succeeded with
a list containing a truthy-named track `t`; the candidate is credited to
`t`'s own artist with `aName` as fallback and inherits `a`'s match score. -/
def fallbackProvenance (p : Provider) (simArtists : List SimilarArtistEntry)
    (it : TrackRecommendation) : Prop :=
  ∃ a ∈ simArtists, ∃ aName, pyTruthyOpt a.name = some aName ∧
    ∃ tops, p.artistGetTopTracks aName 3 = .ok tops ∧
      ∃ t ∈ tops, ∃ tName, pyTruthyOpt t.name = some tName ∧
        it.track = tName ∧ it.artist = pyOrStr t.artistName aName ∧
        it.similarity = a.matchScore

/-- An empty preference state. -/
def prefEmpty : PrefState := { favArtists := ∅, favTags := ∅, favKeys := ∅ }

/-- Items used in concrete witnesses and counterexamples. -/
def itemLoSim : TrackRecommendation :=
  { track := "T1", artist := "A1", rank := 1, similarity := some 1 }

def itemHiSim : TrackRecommendation :=
  { track := "T2", artist := "A2", rank := 2, similarity := some 9 }

def itemNoSim : TrackRecommendation :=
  { track := "T3", artist := "A3", rank := 1, similarity := none }

def itemNegSim : TrackRecommendation :=
  { track := "T4", artist := "A4", rank := 2, similarity := some (-2) }

def itemPrev : TrackRecommendation :=
  { track := "T5", artist := "A5", rank := 1, similarity := some 1,
    preview_url := some "http://p5" }

def itemNoPrev : TrackRecommendation :=
  { track := "T6", artist := "A6", rank := 2, similarity := some 1 }

/-- `pFallback` with a raising `artist.getTopTracks`: the outer fallback
loop reaches the unguarded top-track fetch and the error propagates. -/
def pTopErr : Provider :=
  { pFallback with artistGetTopTracks := fun _ _ => .error "top tracks down" }

/-- A provider whose three unguarded fetches succeed (with data) while every
guarded operation — identity resolution, tag fetching, preview enrichment —
raises. -/
def pGuardErr : Provider :=
  { trackGetSimilar := fun _ _ _ =>
      .ok [{ name := some "S1", artistName := some "SA1", matchScore := some 1 }]
    trackGetTopTags := fun _ _ _ => .error "tags down"
    artistGetSimilar := fun _ _ => .ok [{ name := some "A1", matchScore := some 1 }]
    artistGetTopTracks := fun _ _ => .ok [{ name := some "T1", artistName := some "A1" }]
    artistGetTopTags := fun _ _ => .error "tags down"
    searchRecording := fun _ _ => .error "mb down"
    searchArtist := fun _ _ => .error "mb down"
    itunesSearchTrack := fun _ _ _ => .error "itunes down" }

/-- A fresh client state with an empty 600-second cache and no network
calls issued. -/
def clientState0 : ClientState ℕ := { cache := { ttlSeconds := 600 }, netCalls := 0 }

/-- The two candidates `pFallback` emits in artist-fallback mode. -/
def fbItem1 : TrackRecommendation :=
  { track := "T1", artist := "A1", rank := 1, similarity := some 1,
    reason := "Top track from similar artist: A1" }

def fbItem2 : TrackRecommendation :=
  { track := "T2", artist := "A2", rank := 2, similarity := some 9,
    reason := "Top track from similar artist: A2" }

/-- The favorite toggled in the C5 counterexample, and the two displayed
items scored against it. -/
def favX : FavItem := { track := "t1", artist := "a1", tags := ["tag1"] }

def cItemX : TrackRecommendation :=
  { track := "t1", artist := "a1", rank := 1, tags := ["tag1"] }

def cItemY : TrackRecommendation :=
  { track := "t2", artist := "a1", rank := 2, tags := ["tag1"] }

end MusicRec

example : MusicRec.parseUserQuery "" = (none, none) := by decide

example :
    (MusicRec.recommend MusicRec.pFallback "The Weeknd" 20).map
      (fun r => (r.mode, r.items.map fun it => (it.track, it.rank, it.similarity))) =
    .ok ("artist_fallback", [("T2", 2, some 9), ("T1", 1, some 1)]) := by
  decide

example :
    MusicRec.recommend MusicRec.pSimErr "Blinding Lights by The Weeknd" 20 =
      .error "network down" := by decide

example : MusicRec.parseUserQuery "Bad Guy - Billie Eilish" =
    (some "Bad Guy", some "Billie Eilish") := by decide

example : MusicRec.parseUserQuery "Blinding Lights by The Weeknd" =
    (some "Blinding Lights", some "The Weeknd") := by decide

example : MusicRec.parseUserQuery "The Weeknd" = (none, some "The Weeknd") := by decide

example : MusicRec.normalizeSpace "  a   b " = "a b" := by decide

namespace MusicRec

/-- C8: fallback-mode tag resolution is the 3-step chain (a) similar-artist
tags, (b) query-artist tags, (c) track tags, each later step running only if
the previous yielded nothing (empty or swallowed error), the first non-empty
result winning, and the empty list when all three steps fail or are empty. -/
theorem fallback_tag_chain (p : Provider) (track artist simA qA : String) (lim : ℕ) :
    (∀ tags, p.artistGetTopTags simA lim = .ok tags → tags ≠ [] →
      getFallbackTagsForTrack p track artist simA qA lim = tags) ∧
    (emptyOrErr (p.artistGetTopTags simA lim) →
      ∀ tags, p.artistGetTopTags qA lim = .ok tags → tags ≠ [] →
        getFallbackTagsForTrack p track artist simA qA lim = tags) ∧
    (emptyOrErr (p.artistGetTopTags simA lim) →
      emptyOrErr (p.artistGetTopTags qA lim) →
      ∀ tags, p.trackGetTopTags track artist lim = .ok tags →
        getFallbackTagsForTrack p track artist simA qA lim = tags) ∧
    (emptyOrErr (p.artistGetTopTags simA lim) →
      emptyOrErr (p.artistGetTopTags qA lim) →
      emptyOrErr (p.trackGetTopTags track artist lim) →
      getFallbackTagsForTrack p track artist simA qA lim = []) := by
  refine ⟨?_, ?_, ?_, ?_⟩
  · intro tags h hne
    simp [getFallbackTagsForTrack, firstTags, h, hne]
  · rintro (h1 | ⟨e, h1⟩) tags h hne <;>
      simp [getFallbackTagsForTrack, firstTags, h1, h, hne]
  · rintro (h1 | ⟨e1, h1⟩) (h2 | ⟨e2, h2⟩) tags h <;>
      rcases eq_or_ne tags [] with rfl | hne <;>
      simp [getFallbackTagsForTrack, firstTags, *]
  · rintro (h1 | ⟨e1, h1⟩) (h2 | ⟨e2, h2⟩) (h3 | ⟨e3, h3⟩) <;>
      simp [getFallbackTagsForTrack, firstTags, h1, h2, h3]

/-- C8 witness: with empty artist-tag steps and track tags
`["pop", "dance"]`, the candidate's final tags are `["pop", "dance"]`. -/
theorem fallback_tag_chain_witness :
    emptyOrErr (pTagChain.artistGetTopTags "SimA" 5) ∧
    emptyOrErr (pTagChain.artistGetTopTags "QA" 5) ∧
    pTagChain.trackGetTopTags "t" "a" 5 = .ok ["pop", "dance"] ∧
    getFallbackTagsForTrack pTagChain "t" "a" "SimA" "QA" 5 = ["pop", "dance"] :=
  ⟨Or.inl rfl, Or.inl rfl, rfl,
    (fallback_tag_chain pTagChain "t" "a" "SimA" "QA" 5).2.2.1
      (Or.inl rfl) (Or.inl rfl) ["pop", "dance"] rfl⟩

/-- Any `Except.ok` outcome of the artist-only fallback phase carries
`mode = "artist_fallback"` and the resolved fallback artist. -/
lemma fallbackPhase_ok_mode (p : Provider) (raw : String) (a? : Option String) (n : ℕ)
    (r : RecommendResult) (h : fallbackPhase p raw a? n = .ok r) :
    r.mode = "artist_fallback" ∧
    r.resolved_artist =
      some (pyOrStr (resolveArtist p (pyOrStr a? raw)) (pyOrStr a? raw)) := by
  rcases hfb : recommendByArtistFallback p
      (pyOrStr (resolveArtist p (pyOrStr a? raw)) (pyOrStr a? raw)) n with e | items
  · simp [fallbackPhase, hfb, Except.bind] at h
  · simp only [fallbackPhase, hfb, Except.bind] at h
    rcases hie : items.isEmpty with hie0 | hie1
    all_goals simp [hie] at h
    all_goals simp [← h]

/-- `parseUserQuery ""` is `(none, none)` (used to exclude `raw = ""` when a
parse component is truthy). -/
lemma parseUserQuery_empty : parseUserQuery "" = (none, none) := by decide

/-- C9: the query parser first splits at a whole-word case-insensitive
`by`, otherwise at the first occurrence of `" - "`, `" — "`, `" – "` in that
priority (both sides non-empty), otherwise returns `(None, normalized
text)`; empty normalized input yields `(None, None)`.  The four concrete
spec examples hold. -/
theorem parse_user_query_spec (s : String) :
    parseUserQuery "" = (none, none) ∧
    parseUserQuery "Bad Guy - Billie Eilish" = (some "Bad Guy", some "Billie Eilish") ∧
    parseUserQuery "Blinding Lights by The Weeknd" = (some "Blinding Lights", some "The Weeknd") ∧
    parseUserQuery "The Weeknd" = (none, some "The Weeknd") ∧
    (normalizeSpace s = "" → parseUserQuery s = (none, none)) ∧
    (∀ tr ar, normalizeSpace s ≠ "" → findBySplit (normalizeSpace s).data = some (tr, ar) →
      parseUserQuery s =
        (some (normalizeSpace (String.mk tr)), some (normalizeSpace (String.mk ar)))) ∧
    (∀ l r, normalizeSpace s ≠ "" → findBySplit (normalizeSpace s).data = none →
      findSepSplit (normalizeSpace s).data sepList = some (l, r) →
      parseUserQuery s = (some l, some r)) ∧
    (normalizeSpace s ≠ "" → findBySplit (normalizeSpace s).data = none →
      findSepSplit (normalizeSpace s).data sepList = none →
      parseUserQuery s = (none, some (normalizeSpace s))) := by
  refine ⟨by decide, by decide, by decide, by decide, ?_, ?_, ?_, ?_⟩
  · intro h; simp [parseUserQuery, h]
  · intro tr ar h hby; simp [parseUserQuery, h, hby]
  · intro l r h hby hsep; simp [parseUserQuery, h, hby, hsep]
  · intro h hby hsep; simp [parseUserQuery, h, hby, hsep]

/-- C9 witness: the empty-input clause applied at `"   "`, and the
no-split clause applied at `"The Weeknd"`. -/
theorem parse_user_query_spec_witness :
    normalizeSpace "   " = "" ∧ parseUserQuery "   " = (none, none) ∧
    normalizeSpace "The Weeknd" ≠ "" ∧
    parseUserQuery "The Weeknd" = (none, some (normalizeSpace "The Weeknd")) :=
  ⟨by decide, (parse_user_query_spec "   ").2.2.2.2.1 (by decide), by decide,
    (parse_user_query_spec "The Weeknd").2.2.2.2.2.2.2 (by decide) (by decide) (by decide)⟩

end MusicRec

namespace MusicRec

/-- C1: `recommend`'s mode pipeline.  (1) Input that is empty after
normalization returns `mode="none"` with the fixed empty-input message and
the result does not depend on the provider (no provider call matters).
(2) When parsing yields a truthy track and artist and the resolved track
attempt returns at least one item, the result is the `mode="track"` result —
the pipeline never falls through to artist mode.  (3) In every other case
(track absent, artist absent, or a zero-item track attempt), `recommend` is
exactly the artist fallback phase on `fallbackArtist = artist or raw`, and
any `ok` result has `mode="artist_fallback"`. -/
theorem recommend_mode_pipeline (p : Provider) (s : String) (n : ℕ) :
    (normalizeSpace s = "" →
      recommend p s n = .ok (emptyInputResult s) ∧
      ∀ q : Provider, recommend q s n = recommend p s n) ∧
    (∀ track artist items,
      pyTruthyOpt (parseUserQuery (normalizeSpace s)).1 = some track →
      pyTruthyOpt (parseUserQuery (normalizeSpace s)).2 = some artist →
      recommendByTrack p (resolveTrackArtist p track artist).1
        (resolveTrackArtist p track artist).2 n = .ok items →
      items ≠ [] →
      recommend p s n = .ok
        { mode := "track",
          resolved_track := some (resolveTrackArtist p track artist).1,
          resolved_artist := some (resolveTrackArtist p track artist).2,
          query_raw := normalizeSpace s,
          items := sortItems items,
          message := "'" ++ (resolveTrackArtist p track artist).1 ++ " - " ++
            (resolveTrackArtist p track artist).2 ++ "' 기반 추천" }) ∧
    (normalizeSpace s ≠ "" →
      (pyTruthyOpt (parseUserQuery (normalizeSpace s)).1 = none ∨
       pyTruthyOpt (parseUserQuery (normalizeSpace s)).2 = none ∨
       (∃ track artist,
         pyTruthyOpt (parseUserQuery (normalizeSpace s)).1 = some track ∧
         pyTruthyOpt (parseUserQuery (normalizeSpace s)).2 = some artist ∧
         recommendByTrack p (resolveTrackArtist p track artist).1
           (resolveTrackArtist p track artist).2 n = .ok [])) →
      recommend p s n =
        fallbackPhase p (normalizeSpace s) (parseUserQuery (normalizeSpace s)).2 n ∧
      ∀ r, recommend p s n = .ok r → r.mode = "artist_fallback") := by
  refine ⟨?_, ?_, ?_⟩
  · intro h
    constructor
    · simp [recommend, h]
    · intro q
      simp [recommend, h]
  · intro track artist items h1 h2 hitems hne
    have hraw : normalizeSpace s ≠ "" := by
      intro h0
      rw [h0, parseUserQuery_empty] at h1
      simp [pyTruthyOpt] at h1
    have hie : items.isEmpty = false := by
      simpa [List.isEmpty_iff] using hne
    simp only [recommend, hraw, if_false, reduceIte, h1, h2, hitems, Except.bind, hie,
      Bool.false_eq_true, ite_false]
  · intro hraw hcase
    have key : recommend p s n =
        fallbackPhase p (normalizeSpace s) (parseUserQuery (normalizeSpace s)).2 n := by
      rcases hcase with h1 | h2 | ⟨track, artist, h1, h2, hz⟩
      · rcases h2 : pyTruthyOpt (parseUserQuery (normalizeSpace s)).2 with _ | a <;>
          simp only [recommend, hraw, if_false, reduceIte, h1, h2]
      · rcases h1 : pyTruthyOpt (parseUserQuery (normalizeSpace s)).1 with _ | t <;>
          simp only [recommend, hraw, if_false, reduceIte, h1, h2]
      · simp only [recommend, hraw, if_false, reduceIte, h1, h2, hz, Except.bind,
          List.isEmpty_nil, ite_true]
    refine ⟨key, ?_⟩
    intro r hr
    rw [key] at hr
    exact (fallbackPhase_ok_mode p (normalizeSpace s)
      (parseUserQuery (normalizeSpace s)).2 n r hr).1

end MusicRec

namespace MusicRec

/-- C1 witness: `"The Weeknd"` parses with no track, so clause (3) applies
and `recommend` is the artist fallback phase with `mode="artist_fallback"`. -/
theorem recommend_mode_pipeline_witness :
    normalizeSpace "The Weeknd" ≠ "" ∧
    pyTruthyOpt (parseUserQuery (normalizeSpace "The Weeknd")).1 = none ∧
    (recommend pEmptyOk "The Weeknd" 20 =
      fallbackPhase pEmptyOk (normalizeSpace "The Weeknd")
        (parseUserQuery (normalizeSpace "The Weeknd")).2 20 ∧
     ∀ r, recommend pEmptyOk "The Weeknd" 20 = .ok r → r.mode = "artist_fallback") :=
  ⟨by decide, by decide,
    (recommend_mode_pipeline pEmptyOk "The Weeknd" 20).2.2 (by decide) (.inl (by decide))⟩

end MusicRec

namespace MusicRec

/-- With `artist.getTopTracks` total, the fallback emission loop never
errors. -/
lemma fallbackOuter_isOk (p : Provider) (q : String) (n : ℕ)
    (hTop : ∀ a k, ∃ v, p.artistGetTopTracks a k = .ok v) :
    ∀ (sa : List SimilarArtistEntry) (acc : List TrackRecommendation) (rank : ℕ),
      ∃ out, fallbackOuter p q n sa acc rank = .ok out := by
  intro sa
  induction sa with
  | nil => exact fun acc rank => ⟨acc, rfl⟩
  | cons a rest ih =>
    intro acc rank
    rcases ha : pyTruthyOpt a.name with _ | aName
    · simpa [fallbackOuter, ha] using ih acc rank
    · obtain ⟨tops, htops⟩ := hTop aName 3
      by_cases hl : n ≤ (fallbackInner p q aName a.matchScore n tops acc rank).1.length
      · exact ⟨(fallbackInner p q aName a.matchScore n tops acc rank).1,
          by simp [fallbackOuter, ha, htops, Except.bind, hl]⟩
      · obtain ⟨out, hout⟩ := ih (fallbackInner p q aName a.matchScore n tops acc rank).1
          (fallbackInner p q aName a.matchScore n tops acc rank).2
        exact ⟨out, by simp [fallbackOuter, ha, htops, Except.bind, hl, hout]⟩

/-- With `artist.getSimilar` and `artist.getTopTracks` total, the fallback
phase never errors (every other failure inside it is swallowed). -/
lemma fallbackPhase_isOk (p : Provider) (raw : String) (a? : Option String) (n : ℕ)
    (hArtSim : ∀ a k, ∃ v, p.artistGetSimilar a k = .ok v)
    (hTop : ∀ a k, ∃ v, p.artistGetTopTracks a k = .ok v) :
    ∃ r, fallbackPhase p raw a? n = .ok r := by
  obtain ⟨sa, hsa⟩ :=
    hArtSim (pyOrStr (resolveArtist p (pyOrStr a? raw)) (pyOrStr a? raw)) 10
  obtain ⟨out, hout⟩ := fallbackOuter_isOk p
    (pyOrStr (resolveArtist p (pyOrStr a? raw)) (pyOrStr a? raw)) n hTop sa [] 1
  simp only [fallbackPhase, recommendByArtistFallback, hsa, hout, Except.bind, Except.map]
  split <;> exact ⟨_, rfl⟩

/-- C2 (amended): all provider failures raised inside identity resolution,
tag fetching and preview enrichment are contained — whenever the three
unguarded fetches (`track.getSimilar`, `artist.getSimilar`,
`artist.getTopTracks`) succeed, `recommend` returns `ok` no matter how every
other operation fails. -/
theorem recommend_error_containment (p : Provider)
    (hSim : ∀ t a k, ∃ v, p.trackGetSimilar t a k = .ok v)
    (hArtSim : ∀ a k, ∃ v, p.artistGetSimilar a k = .ok v)
    (hTop : ∀ a k, ∃ v, p.artistGetTopTracks a k = .ok v)
    (s : String) (n : ℕ) :
    ∃ r, recommend p s n = .ok r := by
  by_cases hraw : normalizeSpace s = ""
  · exact ⟨emptyInputResult s, by simp [recommend, hraw]⟩
  · rcases h1 : pyTruthyOpt (parseUserQuery (normalizeSpace s)).1 with _ | track <;>
      rcases h2 : pyTruthyOpt (parseUserQuery (normalizeSpace s)).2 with _ | artist
    · obtain ⟨r, hr⟩ := fallbackPhase_isOk p (normalizeSpace s)
        (parseUserQuery (normalizeSpace s)).2 n hArtSim hTop
      exact ⟨r, by simp only [recommend, hraw, reduceIte, h1, h2]; exact hr⟩
    · obtain ⟨r, hr⟩ := fallbackPhase_isOk p (normalizeSpace s)
        (parseUserQuery (normalizeSpace s)).2 n hArtSim hTop
      exact ⟨r, by simp only [recommend, hraw, reduceIte, h1, h2]; exact hr⟩
    · obtain ⟨r, hr⟩ := fallbackPhase_isOk p (normalizeSpace s)
        (parseUserQuery (normalizeSpace s)).2 n hArtSim hTop
      exact ⟨r, by simp only [recommend, hraw, reduceIte, h1, h2]; exact hr⟩
    · obtain ⟨raws, hraws⟩ := hSim (resolveTrackArtist p track artist).1
        (resolveTrackArtist p track artist).2 n
      by_cases hie : (attachPreview p (buildTrackItems p raws 1)).isEmpty
      · obtain ⟨r, hr⟩ := fallbackPhase_isOk p (normalizeSpace s)
          (parseUserQuery (normalizeSpace s)).2 n hArtSim hTop
        exact ⟨r, by
          simp only [recommend, hraw, reduceIte, h1, h2, recommendByTrack, hraws,
            Except.map, Except.bind, hie, ite_true]
          exact hr⟩
      · simp only [recommend, hraw, reduceIte, h1, h2, recommendByTrack, hraws,
          Except.map, Except.bind, hie, ite_false, Bool.false_eq_true]
        exact ⟨_, rfl⟩

/-- C2 counterexample: the claim says `recommend` never propagates a
provider error, but an error raised at any of the three unguarded call
sites — `track.getSimilar` (line 152), `artist.getSimilar` (line 183),
`artist.getTopTracks` (line 195) — propagates to the caller unchanged. -/
theorem recommend_error_propagates_cex :
    recommend pSimErr "Blinding Lights by The Weeknd" 20 = .error "network down" ∧
    recommend pArtSimErr "The Weeknd" 20 = .error "similar artists down" ∧
    recommend pTopErr "The Weeknd" 20 = .error "top tracks down" := by
  refine ⟨by decide, by decide, by decide⟩

/-- C2 witness: on a provider whose every guarded operation (resolution,
tag fetching, preview enrichment) raises while the three unguarded fetches
succeed, `recommend` still returns `ok` — the guarded failures are all
contained. -/
theorem recommend_error_containment_witness :
    pGuardErr.searchRecording "q" 3 = .error "mb down" ∧
    pGuardErr.trackGetTopTags "t" "a" 5 = .error "tags down" ∧
    pGuardErr.itunesSearchTrack "t" "a" "KR" = .error "itunes down" ∧
    ∃ r, recommend pGuardErr "Blinding Lights by The Weeknd" 20 = .ok r :=
  ⟨rfl, rfl, rfl,
    recommend_error_containment pGuardErr (fun _ _ _ => ⟨_, rfl⟩) (fun _ _ => ⟨_, rfl⟩)
      (fun _ _ => ⟨_, rfl⟩) "Blinding Lights by The Weeknd" 20⟩

end MusicRec

namespace MusicRec

lemma reassignRanksFrom_length :
    ∀ (l : List TrackRecommendation) (k : ℕ), (reassignRanksFrom k l).length = l.length
  | [], _ => rfl
  | _ :: rest, k => by simp [reassignRanksFrom, reassignRanksFrom_length rest]

lemma reassignRanksFrom_get :
    ∀ (l : List TrackRecommendation) (k i : ℕ) (h : i < (reassignRanksFrom k l).length),
      ((reassignRanksFrom k l).get ⟨i, h⟩).rank = k + i := by
  intro l
  induction l with
  | nil => intro k i h; simp [reassignRanksFrom] at h
  | cons it rest ih =>
    intro k i h
    cases i with
    | zero => simp [reassignRanksFrom]
    | succ j =>
      have h' : j < (reassignRanksFrom (k + 1) rest).length := by
        simpa [reassignRanksFrom] using h
      have hih := ih (k + 1) j h'
      simp only [reassignRanksFrom, List.get_cons_succ] at h ⊢
      rw [hih]
      omega

/-- C3 (amended): the UI re-rank operations reassign dense 1-based ranks —
after `_personalized_rerank` followed by the rank-reassignment loop,
`items[i].rank = i + 1` for every index.  (The pipeline's base sort,
by contrast, does not reassign ranks; see the counterexample.) -/
theorem ui_rerank_rank_density (s : PrefState) (items : List TrackRecommendation)
    (i : ℕ) (h : i < (uiRerankAssign s items).length) :
    ((uiRerankAssign s items).get ⟨i, h⟩).rank = i + 1 := by
  have := reassignRanksFrom_get (personalizedRerank s items) 1 i
    (by simpa [uiRerankAssign, reassignRanks] using h)
  simpa [uiRerankAssign, reassignRanks, Nat.add_comm] using this

/-- C3 counterexample: the pipeline's base sort does not reassign ranks —
on a concrete two-item fallback run the returned items carry ranks `[2, 1]`,
not the dense `[1, 2]` the claim requires after the base sort. -/
theorem base_sort_rank_density_cex :
    (recommend pFallback "The Weeknd" 20).map (fun r => r.items.map fun it => it.rank) =
      .ok [2, 1] ∧ ([2, 1] : List ℕ) ≠ [1, 2] := by
  constructor
  · decide
  · decide

/-- C3 witness: the density theorem applied at a concrete re-rank. -/
theorem ui_rerank_rank_density_witness :
    0 < (uiRerankAssign prefEmpty [itemLoSim]).length ∧
    ((uiRerankAssign prefEmpty [itemLoSim]).get ⟨0, by decide⟩).rank = 0 + 1 :=
  ⟨by decide, ui_rerank_rank_density prefEmpty [itemLoSim] 0 (by decide)⟩

end MusicRec

namespace MusicRec

/-- C4 (amended): the base sort is the stable descending sort for the key
(preview-URL truthiness, similarity-or-sentinel): (1) the output is sorted
by `baseSortRel`; (2) equal-key items keep their prior relative order
(stability); (3) among items with equal similarity, one with a truthy
preview URL never appears after one without; (4) an item with absent
similarity is keyed by the sentinel `-1`, so it never appears above an item
of the same preview class whose present similarity exceeds `-1` (the
original claim's "absent below any present value" holds only for values
above the sentinel; see the counterexample). -/
theorem base_sort_spec (items : List TrackRecommendation) :
    List.Sorted baseSortRel (sortItems items) ∧
    (∀ a b, previewFlag a = previewFlag b → simKey a = simKey b →
      List.Sublist [a, b] items → List.Sublist [a, b] (sortItems items)) ∧
    (∀ a b, a.similarity = b.similarity → previewTruthy a.preview_url = true →
      previewTruthy b.preview_url = false → ¬ List.Sublist [b, a] (sortItems items)) ∧
    (∀ a b q, a.similarity = none → b.similarity = some q → (-1 : ℚ) < q →
      previewFlag a = previewFlag b → ¬ List.Sublist [a, b] (sortItems items)) := by
  refine ⟨List.sorted_insertionSort baseSortRel items, ?_, ?_, ?_⟩
  · intro a b h1 h2 hsub
    exact List.pair_sublist_insertionSort (Or.inr ⟨h1, le_of_eq h2.symm⟩) hsub
  · intro a b hsim ha hb hsub
    have hpair : List.Pairwise baseSortRel [b, a] :=
      (List.sorted_insertionSort baseSortRel items).sublist hsub
    have hba : baseSortRel b a := by
      simpa using hpair
    have hfa : previewFlag a = 1 := by simp [previewFlag, ha]
    have hfb : previewFlag b = 0 := by simp [previewFlag, hb]
    rcases hba with h | ⟨h, _⟩
    · rw [hfa, hfb] at h; omega
    · rw [hfa, hfb] at h; omega
  · intro a b q hsa hsb hq hf hsub
    have hpair : List.Pairwise baseSortRel [a, b] :=
      (List.sorted_insertionSort baseSortRel items).sublist hsub
    have hab : baseSortRel a b := by
      simpa using hpair
    rcases hab with h | ⟨_, hs⟩
    · rw [hf] at h; omega
    · rw [simKey, simKey, hsa, hsb] at hs
      simp at hs
      exact absurd (lt_of_lt_of_le hq hs) (lt_irrefl _)

/-- C4 counterexample: the code keys absent similarity as `-1`, so an item
with absent similarity sorts *above* an item whose present similarity is
`-2` — the claim's "absent orders below any present value" is false. -/
theorem base_sort_absent_sentinel_cex :
    itemNoSim.similarity = none ∧ itemNegSim.similarity = some (-2) ∧
    sortItems [itemNegSim, itemNoSim] = [itemNoSim, itemNegSim] := by
  refine ⟨rfl, rfl, ?_⟩
  decide

/-- C4 witness: clause (3) applied at concrete items — the preview-less item
never precedes the previewed one of equal similarity. -/
theorem base_sort_spec_witness :
    itemPrev.similarity = itemNoPrev.similarity ∧
    previewTruthy itemPrev.preview_url = true ∧
    previewTruthy itemNoPrev.preview_url = false ∧
    ¬ List.Sublist [itemNoPrev, itemPrev] (sortItems [itemPrev, itemNoPrev]) :=
  ⟨rfl, by decide, by decide,
    (base_sort_spec [itemPrev, itemNoPrev]).2.2.1 itemPrev itemNoPrev rfl
      (by decide) (by decide)⟩

end MusicRec

namespace MusicRec

/-- A non-empty list stays non-empty through `insertionSort`. -/
lemma insertionSort_isEmpty_false {r : TrackRecommendation → TrackRecommendation → Prop}
    [DecidableRel r] {items : List TrackRecommendation} (h : items.isEmpty = false) :
    (List.insertionSort r items).isEmpty = false := by
  cases hs : List.insertionSort r items with
  | nil =>
    have := List.perm_insertionSort r items
    rw [hs] at this
    rw [this.symm.eq_nil] at h
    simp at h
  | cons a l => rfl

/-- C5 (amended): the personalization scorer is deterministic and
idempotent — re-running it on its own output yields the same ordering.
Toggling a favorite key `k` into the stored-favorites set raises the score
of an item with that favorite key by exactly 80 and leaves items with a
different favorite key unchanged, *provided* the favorite-artist and
favorite-tag sets are unchanged.  (In the application a toggle also rebuilds
those two sets from the store, which can change scores by more than 80 and
change other items' scores; see the counterexample.) -/
theorem personalization_idempotent_toggle (s : PrefState) (k : String)
    (it : TrackRecommendation) (items : List TrackRecommendation)
    (hk : k ∉ s.favKeys) :
    personalizedRerank s (personalizedRerank s items) = personalizedRerank s items ∧
    (favKeyOf it = k →
      personalScore s.favArtists s.favTags (insert k s.favKeys) it =
        personalScore s.favArtists s.favTags s.favKeys it + 80) ∧
    (favKeyOf it ≠ k →
      personalScore s.favArtists s.favTags (insert k s.favKeys) it =
        personalScore s.favArtists s.favTags s.favKeys it) := by
  refine ⟨?_, ?_, ?_⟩
  · by_cases hie : items.isEmpty
    · simp [personalizedRerank, hie]
    · rw [Bool.not_eq_true] at hie
      have h2 := insertionSort_isEmpty_false
        (r := scoreRel s.favArtists s.favTags s.favKeys) hie
      simp only [personalizedRerank, hie, Bool.false_eq_true, ite_false, h2]
      exact List.Sorted.insertionSort_eq
        (List.sorted_insertionSort (scoreRel s.favArtists s.favTags s.favKeys) items)
  · intro hkey
    have h1 : favKeyOf it ∈ insert k s.favKeys := by
      rw [hkey]; exact Finset.mem_insert_self _ _
    have h0 : favKeyOf it ∉ s.favKeys := by rw [hkey]; exact hk
    simp only [personalScore]
    rw [if_pos h1, if_neg h0]
    ring
  · intro hne
    have hiff : (favKeyOf it ∈ insert k s.favKeys) ↔ (favKeyOf it ∈ s.favKeys) := by
      simp [Finset.mem_insert, hne]
    simp only [personalScore]
    by_cases hmem : favKeyOf it ∈ s.favKeys
    · rw [if_pos (hiff.mpr hmem), if_pos hmem]
    · rw [if_neg (fun hmm => hmem (hiff.mp hmm)), if_neg hmem]

/-- C5 counterexample: toggling `favX` into an empty favorites store also
inserts its artist and tag into the favorite sets, so the toggled item's
score rises from 0 to 150 (not by exactly 80), and the other item `cItemY`
(same artist and tag, different favorite key) rises from 0 to 70 instead of
staying unchanged. -/
theorem favorite_toggle_score_cex :
    upsertFav [] favX = [favX] ∧
    personalScore (storeFavArtists [favX]) (storeFavTags [favX]) (storeFavKeys [favX])
      cItemX = 150 ∧
    personalScore (storeFavArtists []) (storeFavTags []) (storeFavKeys []) cItemX = 0 ∧
    ((150 : ℚ) ≠ 0 + 80) ∧
    personalScore (storeFavArtists [favX]) (storeFavTags [favX]) (storeFavKeys [favX])
      cItemY = 70 ∧
    personalScore (storeFavArtists []) (storeFavTags []) (storeFavKeys []) cItemY = 0 := by
  have hA : storeFavArtists [favX] = {"a1"} := by decide
  have hT : storeFavTags [favX] = {"tag1"} := by decide
  have hK : storeFavKeys [favX] = {"t1|||a1"} := by decide
  have hA0 : storeFavArtists [] = ∅ := by decide
  have hT0 : storeFavTags [] = ∅ := by decide
  have hK0 : storeFavKeys [] = ∅ := by decide
  have htX : itemTagSet cItemX.tags ∩ ({"tag1"} : Finset String) = {"tag1"} := by decide
  have htY : itemTagSet cItemY.tags ∩ ({"tag1"} : Finset String) = {"tag1"} := by decide
  refine ⟨by decide, ?_, ?_, by norm_num, ?_, ?_⟩
  · rw [hA, hT, hK]
    simp only [personalScore]
    rw [if_neg (by decide), if_pos (by decide), if_pos (by decide), if_pos (by decide), htX]
    norm_num [cItemX]
  · rw [hA0, hT0, hK0]
    simp only [personalScore]
    rw [if_neg (by decide), if_neg (by decide), if_neg (by decide), if_neg (by decide)]
    norm_num [cItemX]
  · rw [hA, hT, hK]
    simp only [personalScore]
    rw [if_neg (by decide), if_pos (by decide), if_pos (by decide), if_neg (by decide), htY]
    norm_num [cItemY]
  · rw [hA0, hT0, hK0]
    simp only [personalScore]
    rw [if_neg (by decide), if_neg (by decide), if_neg (by decide), if_neg (by decide)]
    norm_num [cItemY]

/-- C5 witness: the toggle clauses applied at a concrete state — inserting
`cItemX`'s favorite key into an empty key set adds exactly 80 to its score
and leaves `cItemY`'s score unchanged. -/
theorem personalization_idempotent_toggle_witness :
    ("t1|||a1" ∉ prefEmpty.favKeys) ∧
    personalizedRerank prefEmpty (personalizedRerank prefEmpty [cItemX, cItemY]) =
      personalizedRerank prefEmpty [cItemX, cItemY] ∧
    personalScore prefEmpty.favArtists prefEmpty.favTags
        (insert "t1|||a1" prefEmpty.favKeys) cItemX =
      personalScore prefEmpty.favArtists prefEmpty.favTags prefEmpty.favKeys cItemX + 80 ∧
    personalScore prefEmpty.favArtists prefEmpty.favTags
        (insert "t1|||a1" prefEmpty.favKeys) cItemY =
      personalScore prefEmpty.favArtists prefEmpty.favTags prefEmpty.favKeys cItemY :=
  ⟨by decide,
    (personalization_idempotent_toggle prefEmpty "t1|||a1" cItemX [cItemX, cItemY]
      (by decide)).1,
    (personalization_idempotent_toggle prefEmpty "t1|||a1" cItemX [cItemX, cItemY]
      (by decide)).2.1 (by decide),
    (personalization_idempotent_toggle prefEmpty "t1|||a1" cItemY [cItemX, cItemY]
      (by decide)).2.2 (by decide)⟩

end MusicRec

namespace MusicRec

/-- The re-rank reads the preference state only through the favorite-artist,
favorite-tag and favorite-key sets. -/
lemma personalizedRerank_congr (items : List TrackRecommendation) (s1 s2 : PrefState)
    (h1 : s1.favArtists = s2.favArtists) (h2 : s1.favTags = s2.favTags)
    (h3 : s1.favKeys = s2.favKeys) :
    personalizedRerank s1 items = personalizedRerank s2 items := by
  simp only [personalizedRerank, h1, h2, h3]

/-- C6 (amended): the personalization re-rank is a function of the favorite
artists, favorite tags and stored favorite keys alone — the like/dislike
feedback store (`FeedbackStore`, including its counters and last-action
marker) is never consulted, so preference states that agree on the three
favorite components produce identical orderings whatever their feedback
contents. -/
theorem rerank_feedback_independent (items : List TrackRecommendation)
    (s1 s2 : PrefState) (h1 : s1.favArtists = s2.favArtists)
    (h2 : s1.favTags = s2.favTags) (h3 : s1.favKeys = s2.favKeys) :
    personalizedRerank s1 items = personalizedRerank s2 items :=
  personalizedRerank_congr items s1 s2 h1 h2 h3

/-- C6 counterexample: there is no item list and no pair of preference
states differing only in their like/dislike feedback that produce different
re-ranked orderings — refuting the claim's "in particular" existential. -/
theorem rerank_feedback_sensitivity_cex :
    ¬ ∃ (items : List TrackRecommendation) (s1 s2 : PrefState),
        s1.favArtists = s2.favArtists ∧ s1.favTags = s2.favTags ∧
        s1.favKeys = s2.favKeys ∧ s1.feedback ≠ s2.feedback ∧
        personalizedRerank s1 items ≠ personalizedRerank s2 items := by
  rintro ⟨items, s1, s2, h1, h2, h3, _, hne⟩
  exact hne (personalizedRerank_congr items s1 s2 h1 h2 h3)

/-- C6 witness: two concrete states that differ only in feedback (one empty,
one with a like recorded) re-rank a concrete list identically. -/
theorem rerank_feedback_independent_witness :
    prefEmpty.feedback ≠
      (PrefState.mk ∅ ∅ ∅ [("t1|a1", { like := 1, last := "like" })]).feedback ∧
    personalizedRerank prefEmpty [cItemX, cItemY] =
      personalizedRerank (PrefState.mk ∅ ∅ ∅ [("t1|a1", { like := 1, last := "like" })])
        [cItemX, cItemY] :=
  ⟨by decide,
    rerank_feedback_independent [cItemX, cItemY] prefEmpty
      (PrefState.mk ∅ ∅ ∅ [("t1|a1", { like := 1, last := "like" })]) rfl rfl rfl⟩

end MusicRec

namespace MusicRec

/-- The inner top-track loop never grows the list beyond `n` when it starts
below `n` (it breaks right after the append that reaches `n`). -/
lemma fallbackInner_length (p : Provider) (q aN : String) (am : Option ℚ) (n : ℕ) :
    ∀ (tops : List TopTrackEntry) (acc : List TrackRecommendation) (rank : ℕ),
      acc.length < n → (fallbackInner p q aN am n tops acc rank).1.length ≤ n := by
  intro tops
  induction tops with
  | nil => intro acc rank h; exact le_of_lt h
  | cons t ts ih =>
    intro acc rank h
    rcases ha : pyTruthyOpt t.name with _ | tName
    · simpa [fallbackInner, ha] using ih acc rank h
    · simp only [fallbackInner, ha]
      split
      · simpa using h
      · next hle =>
        apply ih
        simp only [List.length_append, List.length_singleton] at hle ⊢
        omega

/-- Every item produced by the inner loop either was already accumulated or
is a candidate built from a truthy-named top track: its track is that
track's name, its artist the track's credited artist (falling back to the
similar artist's name), its similarity the similar artist's match score. -/
lemma fallbackInner_mem (p : Provider) (q aN : String) (am : Option ℚ) (n : ℕ) :
    ∀ (tops : List TopTrackEntry) (acc : List TrackRecommendation) (rank : ℕ),
      ∀ it ∈ (fallbackInner p q aN am n tops acc rank).1,
        it ∈ acc ∨ ∃ t ∈ tops, ∃ tName, pyTruthyOpt t.name = some tName ∧
          it.track = tName ∧ it.artist = pyOrStr t.artistName aN ∧ it.similarity = am := by
  intro tops
  induction tops with
  | nil => intro acc rank it hit; exact Or.inl hit
  | cons t ts ih =>
    intro acc rank it hit
    rcases ha : pyTruthyOpt t.name with _ | tName
    · rw [fallbackInner, ha] at hit
      rcases ih acc rank it hit with h | ⟨t', ht', rest⟩
      · exact Or.inl h
      · exact Or.inr ⟨t', List.mem_cons_of_mem _ ht', rest⟩
    · rw [fallbackInner, ha] at hit
      simp only at hit
      split at hit
      · rcases List.mem_append.mp hit with h | h
        · exact Or.inl h
        · rcases List.mem_singleton.mp h with rfl
          exact Or.inr ⟨t, List.mem_cons_self _ _, tName, ha, rfl, rfl, rfl⟩
      · rcases ih _ _ it hit with h | ⟨t', ht', rest⟩
        · rcases List.mem_append.mp h with h' | h'
          · exact Or.inl h'
          · rcases List.mem_singleton.mp h' with rfl
            exact Or.inr ⟨t, List.mem_cons_self _ _, tName, ha, rfl, rfl, rfl⟩
        · exact Or.inr ⟨t', List.mem_cons_of_mem _ ht', rest⟩

/-- The outer loop keeps the emitted list within `n` when it starts below
`n`. -/
lemma fallbackOuter_length (p : Provider) (q : String) (n : ℕ) :
    ∀ (sa : List SimilarArtistEntry) (acc : List TrackRecommendation) (rank : ℕ)
      (out : List TrackRecommendation), acc.length < n →
      fallbackOuter p q n sa acc rank = .ok out → out.length ≤ n := by
  intro sa
  induction sa with
  | nil =>
    intro acc rank out h hout
    obtain rfl : acc = out := by simpa [fallbackOuter] using hout
    exact le_of_lt h
  | cons a rest ih =>
    intro acc rank out h hout
    rcases ha : pyTruthyOpt a.name with _ | aName
    · rw [fallbackOuter, ha] at hout
      exact ih acc rank out h hout
    · rw [fallbackOuter, ha] at hout
      simp only at hout
      rcases htops : p.artistGetTopTracks aName 3 with e | tops
      · rw [htops] at hout; simp [Except.bind] at hout
      · rw [htops] at hout
        simp only [Except.bind] at hout
        split at hout
        · obtain rfl : (fallbackInner p q aName a.matchScore n tops acc rank).1 = out := by
            simpa using hout
          exact fallbackInner_length p q aName a.matchScore n tops acc rank h
        · next hle =>
          refine ih _ _ out ?_ hout
          exact lt_of_not_le hle

/-- Every item emitted by the outer loop (beyond the accumulator) has
fallback provenance within the scanned similar artists. -/
lemma fallbackOuter_mem (p : Provider) (q : String) (n : ℕ) :
    ∀ (sa : List SimilarArtistEntry) (acc : List TrackRecommendation) (rank : ℕ)
      (out : List TrackRecommendation), fallbackOuter p q n sa acc rank = .ok out →
      ∀ it ∈ out, it ∈ acc ∨ fallbackProvenance p sa it := by
  intro sa
  induction sa with
  | nil =>
    intro acc rank out hout it hit
    obtain rfl : acc = out := by simpa [fallbackOuter] using hout
    exact Or.inl hit
  | cons a rest ih =>
    intro acc rank out hout it hit
    rcases ha : pyTruthyOpt a.name with _ | aName
    · rw [fallbackOuter, ha] at hout
      rcases ih acc rank out hout it hit with h | ⟨a', ha', rest'⟩
      · exact Or.inl h
      · exact Or.inr ⟨a', List.mem_cons_of_mem _ ha', rest'⟩
    · rw [fallbackOuter, ha] at hout
      simp only at hout
      rcases htops : p.artistGetTopTracks aName 3 with e | tops
      · rw [htops] at hout; simp [Except.bind] at hout
      · rw [htops] at hout
        simp only [Except.bind] at hout
        split at hout
        · obtain rfl : (fallbackInner p q aName a.matchScore n tops acc rank).1 = out := by
            simpa using hout
          rcases fallbackInner_mem p q aName a.matchScore n tops acc rank it hit with
            h | ⟨t, ht, tName, htn, h1, h2, h3⟩
          · exact Or.inl h
          · exact Or.inr ⟨a, List.mem_cons_self _ _, aName, ha, tops, htops,
              t, ht, tName, htn, h1, h2, h3⟩
        · rcases ih _ _ out hout it hit with h | ⟨a', ha', rest'⟩
          · rcases fallbackInner_mem p q aName a.matchScore n tops acc rank it h with
              h' | ⟨t, ht, tName, htn, h1, h2, h3⟩
            · exact Or.inl h'
            · exact Or.inr ⟨a, List.mem_cons_self _ _, aName, ha, tops, htops,
                t, ht, tName, htn, h1, h2, h3⟩
          · exact Or.inr ⟨a', List.mem_cons_of_mem _ ha', rest'⟩

lemma attachPreview_length (p : Provider) (items : List TrackRecommendation) :
    (attachPreview p items).length = items.length := by
  simp [attachPreview]

/-- Preview enrichment only sets URL fields; track, artist and similarity
are preserved. -/
lemma attachPreview_fields (p : Provider) (items : List TrackRecommendation) :
    ∀ it ∈ attachPreview p items, ∃ it0 ∈ items,
      it.track = it0.track ∧ it.artist = it0.artist ∧ it.similarity = it0.similarity := by
  intro it hit
  rcases List.mem_map.mp hit with ⟨it0, h0, heq⟩
  refine ⟨it0, h0, ?_⟩
  rcases hres : p.itunesSearchTrack it0.track it0.artist "KR" with e | hv
  · rw [hres] at heq; subst heq; exact ⟨rfl, rfl, rfl⟩
  · rcases hv with _ | hit'
    · rw [hres] at heq; subst heq; exact ⟨rfl, rfl, rfl⟩
    · rw [hres] at heq; subst heq; exact ⟨rfl, rfl, rfl⟩

/-- C7 (amended): in artist-fallback mode, provided `limit ≥ 1`, the
returned list never exceeds `limit` items, and every returned candidate is
built from a truthy-named top track of a scanned similar artist — credited
to the top track's own artist with the similar artist's name as fallback,
and carrying the similar artist's match score as its similarity (tracks
inherit their artist's similarity).  (For `limit = 0` the source's
check-after-append loop emits one item; see the counterexample.) -/
theorem fallback_emission_spec (p : Provider) (artist : String) (n : ℕ)
    (items : List TrackRecommendation) (hn : 1 ≤ n)
    (h : recommendByArtistFallback p artist n = .ok items) :
    items.length ≤ n ∧
    ∃ simArtists, p.artistGetSimilar artist 10 = .ok simArtists ∧
      ∀ it ∈ items, fallbackProvenance p simArtists it := by
  rcases hsa : p.artistGetSimilar artist 10 with e | sa
  · rw [recommendByArtistFallback, hsa] at h; simp [Except.bind] at h
  · rw [recommendByArtistFallback, hsa] at h
    simp only [Except.bind] at h
    rcases hout : fallbackOuter p artist n sa [] 1 with e | out
    · rw [hout] at h; simp [Except.map] at h
    · rw [hout] at h
      simp only [Except.map, Except.ok.injEq] at h
      subst h
      constructor
      · rw [attachPreview_length]
        exact fallbackOuter_length p artist n sa [] 1 out
          (by simpa using hn) hout
      · refine ⟨sa, rfl, ?_⟩
        intro it hit
        obtain ⟨it0, h0, htr, har, hsim⟩ := attachPreview_fields p out it hit
        rcases fallbackOuter_mem p artist n sa [] 1 out hout it0 h0 with h' | hprov
        · simp at h'
        · obtain ⟨a, hain, aName, haN, tops, htops, t, ht, tName, htn, h1, h2, h3⟩ := hprov
          exact ⟨a, hain, aName, haN, tops, htops, t, ht, tName, htn,
            htr.trans h1, har.trans h2, hsim.trans h3⟩

/-- C7 counterexample: with `limit = 0` the loop appends one candidate
before its first length check, so the returned list exceeds the limit. -/
theorem fallback_limit_zero_cex :
    (recommendByArtistFallback pFallback "X" 0).map List.length = .ok 1 ∧ (0 : ℕ) < 1 := by
  constructor
  · decide
  · decide

/-- C7 witness: the emission theorem applied to a concrete two-artist
provider run at `limit = 20`. -/
theorem fallback_emission_spec_witness :
    recommendByArtistFallback pFallback "X" 20 = .ok [fbItem1, fbItem2] ∧
    ([fbItem1, fbItem2] : List TrackRecommendation).length ≤ 20 ∧
    (∃ simArtists, pFallback.artistGetSimilar "X" 10 = .ok simArtists ∧
      ∀ it ∈ [fbItem1, fbItem2], fallbackProvenance pFallback simArtists it) :=
  ⟨by decide,
    (fallback_emission_spec pFallback "X" 20 [fbItem1, fbItem2] (by decide) (by decide)).1,
    (fallback_emission_spec pFallback "X" 20 [fbItem1, fbItem2] (by decide) (by decide)).2⟩

end MusicRec

namespace MusicRec

/-- Two sorted parameter lists with the same entries and pairwise-distinct
keys are equal. -/
lemma sorted_perm_nodup_keys_eq :
    ∀ {l1 l2 : List (String × String)}, l1.Perm l2 →
      l1.Sorted keyLe → l2.Sorted keyLe → (l1.map Prod.fst).Nodup → l1 = l2 := by
  intro l1
  induction l1 with
  | nil =>
    intro l2 hp _ _ _
    exact (List.Perm.eq_nil hp.symm).symm
  | cons a t1 ih =>
    intro l2 hp h1 h2 hnd
    cases l2 with
    | nil => exact absurd (List.Perm.eq_nil hp) (by simp)
    | cons b t2 =>
      have hnd' : a.1 ∉ t1.map Prod.fst ∧ (t1.map Prod.fst).Nodup := by
        simpa using hnd
      have hab : a = b := by
        have haIn : a ∈ b :: t2 := hp.mem_iff.mp (List.mem_cons_self a t1)
        rcases List.mem_cons.mp haIn with h | h
        · exact h
        · have hba : keyLe b a := (List.sorted_cons.mp h2).1 a h
          have hbIn : b ∈ a :: t1 := hp.symm.mem_iff.mp (List.mem_cons_self b t2)
          rcases List.mem_cons.mp hbIn with h' | h'
          · exact h'.symm
          · have hab' : keyLe a b := (List.sorted_cons.mp h1).1 b h'
            have hkey : a.1 = b.1 := le_antisymm hab' hba
            have : a.1 ∈ t1.map Prod.fst := hkey ▸ List.mem_map_of_mem Prod.fst h'
            exact absurd this hnd'.1
      subst hab
      rw [ih hp.cons_inv (List.sorted_cons.mp h1).2 (List.sorted_cons.mp h2).2 hnd'.2]

/-- The canonical key is insertion-order independent on parameter maps with
distinct keys. -/
lemma canonParams_perm (l1 l2 : List (String × String)) (hp : l1.Perm l2)
    (hnd : (l1.map Prod.fst).Nodup) : canonParams l1 = canonParams l2 := by
  unfold canonParams
  have hs : List.insertionSort keyLe l1 = List.insertionSort keyLe l2 := by
    apply sorted_perm_nodup_keys_eq
    · exact (List.perm_insertionSort keyLe l1).trans
        (hp.trans (List.perm_insertionSort keyLe l2).symm)
    · exact List.sorted_insertionSort keyLe l1
    · exact List.sorted_insertionSort keyLe l2
    · exact (((List.perm_insertionSort keyLe l1).map Prod.fst).nodup_iff).mpr hnd
  rw [hs]

/-- Reading a freshly written key returns the written value (no expiry at
the write instant). -/
lemma ttl_get_set {α : Type} (c : TTLCacheM α) (now : ℕ) (k : String) (v : α) :
    (c.set now k v).get now k = some v := by
  simp only [TTLCacheM.set, TTLCacheM.get]
  rw [List.find?_cons_of_pos _ (by simp)]
  simp

end MusicRec

namespace MusicRec

/-- After an iTunes lookup, the canonical key holds the returned value. -/
lemma itunes_call_cached (net : List (String × String) → Option ITunesHit)
    (t a c : String) (now : ℕ) (st : ClientState (Option ITunesHit)) :
    (itunesSearchTrackC net t a c now st).2.cache.get now (itunesCacheKey t a c) =
      some (itunesSearchTrackC net t a c now st).1 := by
  rcases hc : st.cache.get now (itunesCacheKey t a c) with _ | hv
  · simp only [itunesSearchTrackC, hc]
    exact ttl_get_set st.cache now (itunesCacheKey t a c) _
  · rcases hv with _ | hit
    · simp only [itunesSearchTrackC, hc]
      exact ttl_get_set st.cache now (itunesCacheKey t a c) _
    · simp only [itunesSearchTrackC, hc]

/-- A repeated identical iTunes lookup that previously found a hit is served
from the cache: same result, unchanged state (no further network call). -/
lemma itunes_second_call (net : List (String × String) → Option ITunesHit)
    (t a c : String) (now : ℕ) (st : ClientState (Option ITunesHit)) (hit : ITunesHit)
    (h : (itunesSearchTrackC net t a c now st).1 = some hit) :
    itunesSearchTrackC net t a c now (itunesSearchTrackC net t a c now st).2 =
      (some hit, (itunesSearchTrackC net t a c now st).2) := by
  have hcache := itunes_call_cached net t a c now st
  rw [h] at hcache
  set st2 := (itunesSearchTrackC net t a c now st).2 with hst2
  simp only [itunesSearchTrackC, hcache]

/-- After a MusicBrainz lookup, the canonical key holds the returned
payload. -/
lemma mb_call_cached (net : String → List (String × String) → ℕ) (e : String)
    (ps : List (String × String)) (now : ℕ) (st : ClientState ℕ) :
    (mbGetC net e ps now st).2.cache.get now (mbCacheKey e ps) =
      some (mbGetC net e ps now st).1 := by
  rcases hc : st.cache.get now (mbCacheKey e ps) with _ | v
  · simp only [mbGetC, hc]
    exact ttl_get_set st.cache now (mbCacheKey e ps) _
  · simp only [mbGetC, hc]

/-- A repeated identical MusicBrainz lookup is always served from the
cache. -/
lemma mb_second_call (net : String → List (String × String) → ℕ) (e : String)
    (ps : List (String × String)) (now : ℕ) (st : ClientState ℕ) :
    mbGetC net e ps now (mbGetC net e ps now st).2 =
      ((mbGetC net e ps now st).1, (mbGetC net e ps now st).2) := by
  have hcache := mb_call_cached net e ps now st
  set st2 := (mbGetC net e ps now st).2 with hst2
  simp only [mbGetC, hcache]

/-- C10 (amended): the iTunes and MusicBrainz clients read and write the
shared TTL cache at a canonical key — parameters serialized in sorted-key
order joined with `&` behind the provider namespace — so permuted parameter
maps with distinct keys build the identical key and share the cache entry;
after a call the canonical key holds the returned value, and a repeated
identical call is served from the cache.  The Last.fm client, however, holds
no cache at all: its calls leave the shared cache untouched (see the
counterexample). -/
theorem provider_cache_canonical_key (l1 l2 : List (String × String))
    (hp : l1.Perm l2) (hnd : (l1.map Prod.fst).Nodup) :
    canonParams l1 = canonParams l2 ∧
    (∀ (net : List (String × String) → Option ITunesHit) (t a c : String) (now : ℕ)
      (st : ClientState (Option ITunesHit)),
      (itunesSearchTrackC net t a c now st).2.cache.get now (itunesCacheKey t a c) =
        some (itunesSearchTrackC net t a c now st).1 ∧
      ∀ hit, (itunesSearchTrackC net t a c now st).1 = some hit →
        itunesSearchTrackC net t a c now (itunesSearchTrackC net t a c now st).2 =
          (some hit, (itunesSearchTrackC net t a c now st).2)) ∧
    (∀ (net : String → List (String × String) → ℕ) (e : String)
      (ps : List (String × String)) (now : ℕ) (st : ClientState ℕ),
      (mbGetC net e ps now st).2.cache.get now (mbCacheKey e ps) =
        some (mbGetC net e ps now st).1 ∧
      mbGetC net e ps now (mbGetC net e ps now st).2 =
        ((mbGetC net e ps now st).1, (mbGetC net e ps now st).2)) ∧
    (∀ (apiKey : String) (net : List (String × String) → ℕ)
      (ps : List (String × String)) (st : ClientState ℕ),
      (lastfmGetC apiKey net ps st).2.cache = st.cache) :=
  ⟨canonParams_perm l1 l2 hp hnd,
   fun net t a c now st =>
     ⟨itunes_call_cached net t a c now st,
      fun hit h => itunes_second_call net t a c now st hit h⟩,
   fun net e ps now st => ⟨mb_call_cached net e ps now st, mb_second_call net e ps now st⟩,
   fun _ _ _ _ => rfl⟩

/-- C10 counterexample: a Last.fm provider call neither reads nor writes
the shared TTL cache — after one call the cache is still empty, and an
identical second call issues a second network request instead of using a
cache entry. -/
theorem lastfm_cache_bypass_cex :
    (lastfmGetC "KEY" (fun _ => 7) [("method", "track.getSimilar")]
      clientState0).2.cache.entries = [] ∧
    (lastfmGetC "KEY" (fun _ => 7) [("method", "track.getSimilar")]
      (lastfmGetC "KEY" (fun _ => 7) [("method", "track.getSimilar")]
        clientState0).2).2.netCalls = 2 :=
  ⟨rfl, rfl⟩

/-- C10 witness: the canonical key built from `{b:2, a:1}` equals the one
built from `{a:1, b:2}`. -/
theorem provider_cache_canonical_key_witness :
    ([("b", "2"), ("a", "1")] : List (String × String)).Perm [("a", "1"), ("b", "2")] ∧
    (([("b", "2"), ("a", "1")] : List (String × String)).map Prod.fst).Nodup ∧
    canonParams [("b", "2"), ("a", "1")] = canonParams [("a", "1"), ("b", "2")] :=
  ⟨List.Perm.swap ("a", "1") ("b", "2") [], by decide,
    (provider_cache_canonical_key [("b", "2"), ("a", "1")] [("a", "1"), ("b", "2")]
      (List.Perm.swap ("a", "1") ("b", "2") []) (by decide)).1⟩

end MusicRec
